import Mathlib

/-!
Verification of the crawl worker (src/python/crawl_worker.py): a shallow
embedding of its Python AST extraction functions (`is_exported`,
`get_signature`, `extract_imports`, `extract_calls`, `parse_python_ast`),
of `fetch_headless`, and of the request-dispatch loop in `main`, together
with theorems settling the specification claims.

The Python standard library's `ast` module is embedded as follows: syntax
trees are the inductive `Node` (constructor names and field order follow
CPython's `ast` node classes), `ast.iter_child_nodes` is `children`,
`ast.walk` is `walkList` (CPython's `ast.walk` is a breadth-first
traversal using a FIFO deque, yielding the start node first), and
`ast.unparse` is modelled by `unparse` on the expression shapes used in
annotations. `ast.parse` itself (text to tree) is external to the
repository and is passed in as a component of `WorkerEnv`, as is the
crawl4ai rendering engine.
-/

namespace CrawlWorker

/-- One `alias` node of CPython's `ast`: `name` and optional `asname`. -/
structure PyAlias where
  name : String
  asname : Option String
deriving DecidableEq

/-- Python syntax trees, as CPython's `ast` classes. `Arguments` and `Arg`
mirror the `arguments` / `arg` nodes; a `FunctionDef`'s `args` field is
expected to be an `Arguments` node (guaranteed by CPython's parser).
`Other` stands for any further statement or expression kind (assignments,
bare expressions, ...), which the worker never inspects beyond walking
into its children. -/
inductive Node where
  | Module (body : List Node)
  | FunctionDef (name : String) (args : Node) (body : List Node)
      (decorator_list : List Node) (returns : Option Node)
      (lineno : Nat) (end_lineno : Option Nat)
  | AsyncFunctionDef (name : String) (args : Node) (body : List Node)
      (decorator_list : List Node) (returns : Option Node)
      (lineno : Nat) (end_lineno : Option Nat)
  | ClassDef (name : String) (bases : List Node) (body : List Node)
      (decorator_list : List Node) (lineno : Nat) (end_lineno : Option Nat)
  | ImportStmt (names : List PyAlias)
  | ImportFrom (module : Option String) (names : List PyAlias)
  | ExprStmt (value : Node)
  | Call (func : Node) (args : List Node) (keywords : List Node)
  | Keyword (value : Node)
  | Name (id : String)
  | Attribute (value : Node) (attr : String)
  | Subscript (value : Node) (slice : Node)
  | Constant (text : String)
  | Arguments (posonlyargs : List Node) (args : List Node)
      (vararg : Option Node) (kwonlyargs : List Node)
      (kw_defaults : List Node) (kwarg : Option Node) (defaults : List Node)
  | Arg (arg : String) (annot : Option Node)
  | Other (kids : List Node)

/-- `ast.iter_child_nodes`: the direct child AST nodes of a node, in the
order of the node class's `_fields`. -/
def children : Node → List Node
  | .Module body => body
  | .FunctionDef _ args body dec ret _ _ => args :: (body ++ (dec ++ ret.toList))
  | .AsyncFunctionDef _ args body dec ret _ _ => args :: (body ++ (dec ++ ret.toList))
  | .ClassDef _ bases body dec _ _ => bases ++ (body ++ dec)
  | .ImportStmt _ => []
  | .ImportFrom _ _ => []
  | .ExprStmt v => [v]
  | .Call f args kws => f :: (args ++ kws)
  | .Keyword v => [v]
  | .Name _ => []
  | .Attribute v _ => [v]
  | .Subscript v s => [v, s]
  | .Constant _ => []
  | .Arguments po args va ko kwd kwa ds =>
      po ++ (args ++ (va.toList ++ (ko ++ (kwd ++ (kwa.toList ++ ds)))))
  | .Arg _ ann => ann.toList
  | .Other kids => kids

mutual

/-- The number of AST nodes in a tree; the termination measure of the
breadth-first walk. -/
def countNode : Node → Nat
  | .Module body => 1 + countList body
  | .FunctionDef _ args body dec ret _ _ =>
      1 + countNode args + countList body + countList dec + countOpt ret
  | .AsyncFunctionDef _ args body dec ret _ _ =>
      1 + countNode args + countList body + countList dec + countOpt ret
  | .ClassDef _ bases body dec _ _ => 1 + countList bases + countList body + countList dec
  | .ImportStmt _ => 1
  | .ImportFrom _ _ => 1
  | .ExprStmt v => 1 + countNode v
  | .Call f args kws => 1 + countNode f + countList args + countList kws
  | .Keyword v => 1 + countNode v
  | .Name _ => 1
  | .Attribute v _ => 1 + countNode v
  | .Subscript v s => 1 + countNode v + countNode s
  | .Constant _ => 1
  | .Arguments po args va ko kwd kwa ds =>
      1 + countList po + countList args + countOpt va + countList ko +
        countList kwd + countOpt kwa + countList ds
  | .Arg _ ann => 1 + countOpt ann
  | .Other kids => 1 + countList kids

/-- Total node count of a list of trees. -/
def countList : List Node → Nat
  | [] => 0
  | x :: xs => countNode x + countList xs

/-- Total node count of an optional tree. -/
def countOpt : Option Node → Nat
  | none => 0
  | some v => countNode v

end

/-- Counting fact used for termination of the breadth-first walk. -/
def countList_append (xs ys : List Node) : countList (xs ++ ys) = countList xs + countList ys := by
  induction xs with
  | nil => simp [countList]
  | cons x xs ih => simp [countList, List.cons_append, ih]; omega

/-- Counting fact used for termination of the breadth-first walk. -/
def countList_toList (o : Option Node) : countList o.toList = countOpt o := by
  cases o <;> simp [countList, countOpt, Option.toList]

/-- Counting fact used for termination of the breadth-first walk. -/
def countNode_pos (t : Node) : 1 ≤ countNode t := by
  cases t <;> simp [countNode] <;> omega

/-- A node's children hold strictly fewer nodes than the node's own tree. -/
def children_count_lt (t : Node) : countList (children t) < countNode t := by
  cases t <;>
    simp [children, countNode, countList, countList_append, countList_toList] <;>
    omega

/-- `ast.walk` over a worklist: CPython's `ast.walk` pops a node from a
FIFO deque, enqueues its children and yields it — a breadth-first
traversal. `walkList q` is the sequence of nodes yielded starting from
worklist `q`. -/
def walkList : List Node → List Node
  | [] => []
  | t :: ts => t :: walkList (ts ++ children t)
termination_by l => countList l
decreasing_by
  all_goals
    have h1 := countList_append xs (children x)
    have h2 := children_count_lt x
    have h3 := countNode_pos x
    simp [countList]
    omega

/-- `ast.walk(node)`: all nodes of the tree, breadth first, starting with
the node itself. -/
def walk (node : Node) : List Node := walkList [node]

/-- Depth-first (pre-order) listing of the same nodes: the order in which
constructs appear in the source text. Used as the specification-side
notion of source-appearance order. -/
def preorderList : List Node → List Node
  | [] => []
  | t :: ts => t :: (preorderList (children t) ++ preorderList ts)
termination_by l => countList l
decreasing_by
  all_goals
    have h1 := countList_append xs (children x)
    have h2 := children_count_lt x
    have h3 := countNode_pos x
    simp [countList]
    omega

/-- Python truthiness of an optional string value (`None` and `''` are
falsy, every other string is truthy). -/
def pyTruthyStr : Option String → Bool
  | some s => if s = "" then false else true
  | none => false

/-- Python `a or b` for an optional string `a` with fallback `b`. -/
def pyOrStr (a : Option String) (b : String) : String :=
  if pyTruthyStr a then a.getD "" else b

/-- Model of `ast.unparse` on the expression shapes occurring in
annotations: names, dotted names, subscripts and constants. -/
def unparse : Node → String
  | .Name id => id
  | .Attribute v attr => unparse v ++ "." ++ attr
  | .Subscript v s => unparse v ++ "[" ++ unparse s ++ "]"
  | .Constant text => text
  | _ => ""

/-- Python's `name.startswith('_')`: the string's first character is an
underscore. -/
def startswith_underscore (s : String) : Bool :=
  match s.data with
  | [] => false
  | c :: _ => c == '_'

/-- `is_exported` (crawl_worker.py lines 43-47): a function or class is
exported unless its name starts with an underscore; any other node kind
returns false. -/
def is_exported : Node → Bool
  | .FunctionDef name _ _ _ _ _ _ => !(startswith_underscore name)
  | .AsyncFunctionDef name _ _ _ _ _ _ => !(startswith_underscore name)
  | .ClassDef name _ _ _ _ _ => !(startswith_underscore name)
  | _ => false

/-- One entry of `get_signature`'s `args_list`: the parameter name,
followed by `: <unparsed annotation>` when the parameter is annotated. -/
def renderArg : Node → String
  | .Arg a (some t) => a ++ ": " ++ unparse t
  | .Arg a none => a
  | _ => ""

/-- The `args` field of an `arguments` node — `node.args.args` in the
source: only the plain positional-or-keyword parameter list. -/
def argsOf : Node → List Node
  | .Arguments _ args _ _ _ _ _ => args
  | _ => []

/-- `get_signature` (crawl_worker.py lines 49-63): renders
`name(arg[: annot], ...)` from `node.args.args` only, appending
` -> <unparsed returns>` when a return annotation is present. -/
def get_signature : Node → String
  | .FunctionDef name args _ _ ret _ _ =>
      name ++ "(" ++ String.intercalate ", " ((argsOf args).map renderArg) ++ ")" ++
        (match ret with | some r => " -> " ++ unparse r | none => "")
  | .AsyncFunctionDef name args _ _ ret _ _ =>
      name ++ "(" ++ String.intercalate ", " ((argsOf args).map renderArg) ++ ")" ++
        (match ret with | some r => " -> " ++ unparse r | none => "")
  | _ => ""

/-- One import entry as built by `extract_imports`: a plain `import`
statement produces a two-key record `{source, imported}`, a
`from ... import ...` statement produces a three-key record
`{source, imported, alias}` whose alias may be null. -/
inductive ImportEntry where
  | plain (source : String) (imported : String)
  | fromEntry (source : String) (imported : String) (al : Option String)
deriving DecidableEq

/-- The entries one AST node contributes to `extract_imports`
(crawl_worker.py lines 70-83): `ast.Import` yields one entry per alias
with `imported = asname if asname else name`; `ast.ImportFrom` yields one
entry per alias with `source = module if module else ''` and
`alias = asname if asname else None`; other nodes contribute nothing. -/
def importEntriesOf : Node → List ImportEntry
  | .ImportStmt names =>
      names.map (fun a =>
        .plain a.name (if pyTruthyStr a.asname then a.asname.getD "" else a.name))
  | .ImportFrom module names =>
      names.map (fun a =>
        .fromEntry (if pyTruthyStr module then module.getD "" else "")
          a.name (if pyTruthyStr a.asname then a.asname else none))
  | _ => []

/-- `extract_imports` (crawl_worker.py lines 65-85): walks the whole tree
with `ast.walk` and appends each node's import entries in walk order. -/
def extract_imports (tree : Node) : List ImportEntry :=
  (walk tree).flatMap importEntriesOf

/-- The callee name `extract_calls` records for a node: for a `Call`
whose function is a bare `Name`, the name itself; for a `Call` whose
function is an `Attribute`, the final attribute name; nothing for
anything else. -/
def calleeOf : Node → Option String
  | .Call (.Name id) _ _ => some id
  | .Call (.Attribute _ attr) _ _ => some attr
  | _ => none

/-- `extract_calls` (crawl_worker.py lines 87-98): walks the given
function node with `ast.walk` and collects callee names in walk order. -/
def extract_calls (node : Node) : List String :=
  (walk node).filterMap calleeOf

/-- Python truthiness for the `end_lineno if end_lineno else lineno`
fallback (crawl_worker.py lines 113, 128, 137): `None` and `0` fall back
to `lineno`. -/
def pyEndLine (lineno : Nat) (end_lineno : Option Nat) : Nat :=
  match end_lineno with
  | some n => if n = 0 then lineno else n
  | none => lineno

/-- A method record of a class CodeNode (crawl_worker.py lines 123-130):
same shape as a function but with no exported flag. -/
structure Method where
  name : String
  isAsync : Bool
  signature : String
  startLine : Nat
  endLine : Nat
  calls : List String
deriving DecidableEq

/-- A CodeNode as emitted by `parse_python_ast`: either a function record
(`type: 'function'`) or a class record (`type: 'class'`). -/
inductive CodeNode where
  | function (name : String) (exported : Bool) (startLine : Nat) (endLine : Nat)
      (isAsync : Bool) (signature : String) (calls : List String)
  | cls (name : String) (exported : Bool) (startLine : Nat) (endLine : Nat)
      (methods : List Method)
deriving DecidableEq

/-- The `name` field of a CodeNode. -/
def CodeNode.name : CodeNode → String
  | .function n _ _ _ _ _ _ => n
  | .cls n _ _ _ _ => n

/-- The `exported` field of a CodeNode. -/
def CodeNode.exported : CodeNode → Bool
  | .function _ e _ _ _ _ _ => e
  | .cls _ e _ _ _ => e

/-- The inner loop over a class body (crawl_worker.py lines 120-130):
direct `FunctionDef`/`AsyncFunctionDef` members become Method records;
nothing is walked deeper. -/
def methodsOf (cbody : List Node) : List Method :=
  cbody.filterMap (fun item =>
    match item with
    | .FunctionDef mname _ _ _ _ lineno e =>
        some { name := mname, isAsync := false, signature := get_signature item,
               startLine := lineno, endLine := pyEndLine lineno e,
               calls := extract_calls item }
    | .AsyncFunctionDef mname _ _ _ _ lineno e =>
        some { name := mname, isAsync := true, signature := get_signature item,
               startLine := lineno, endLine := pyEndLine lineno e,
               calls := extract_calls item }
    | _ => none)

/-- One iteration of the `for node in tree.body` loop of
`parse_python_ast` (crawl_worker.py lines 106-139): a top-level function,
async function or class contributes one CodeNode; any other top-level
statement contributes nothing. -/
def parse_node_entry : Node → Option CodeNode := fun node =>
  match node with
  | .FunctionDef fname _ _ _ _ lineno e =>
      some (.function fname (is_exported node) lineno (pyEndLine lineno e)
        false (get_signature node) (extract_calls node))
  | .AsyncFunctionDef fname _ _ _ _ lineno e =>
      some (.function fname (is_exported node) lineno (pyEndLine lineno e)
        true (get_signature node) (extract_calls node))
  | .ClassDef cname _ cbody _ lineno e =>
      some (.cls cname (is_exported node) lineno (pyEndLine lineno e)
        (methodsOf cbody))
  | _ => none

/-- The `nodes` list built by `parse_python_ast` from the module body. -/
def parse_nodes (body : List Node) : List CodeNode :=
  body.filterMap parse_node_entry

/-- The result record of a successful `parse_python_ast` call. -/
structure ExtractionResult where
  nodes : List CodeNode
  importList : List ImportEntry
deriving DecidableEq

/-- The successful branch of `parse_python_ast` (crawl_worker.py lines
103-146) applied to an already-parsed tree: walk `tree.body` for nodes
and the whole tree for imports. -/
def parse_python_result (tree : Node) : ExtractionResult :=
  { nodes := parse_nodes (match tree with | .Module b => b | _ => []),
    importList := extract_imports tree }

/-- A link value as the crawl4ai engine reports it: either a plain href
string or a link-descriptor object (of which the worker's raw-fetch mode
inspects nothing). -/
inductive LinkVal where
  | str (s : String)
  | obj (href : String)
deriving DecidableEq

/-- The engine's `result.links` attribute: a dict with `internal` and
`external` lists, or some non-dict value. -/
inductive LinksVal where
  | dict (internal : List LinkVal) (external : List LinkVal)
  | nonDict
deriving DecidableEq

/-- The crawl4ai engine's crawl result, as far as `fetch_headless` reads
it: `success`, `error_message`, `html`, `markdown`, `cleaned_html` (each
possibly `None`) and `links`. -/
structure EngineResult where
  success : Bool
  error_message : String
  html : Option String
  markdown : Option String
  cleaned_html : Option String
  links : LinksVal

/-- The `{html, markdown, links}` record returned by `fetch_headless`. -/
structure FetchResult where
  html : String
  markdown : String
  links : List LinkVal
deriving DecidableEq

/-- `fetch_headless` (crawl_worker.py lines 18-41), applied to the result
the engine returned for the URL: raises (`Except.error`) on engine
failure; otherwise combines the internal and external link lists and
returns `{html: html or '', markdown: markdown or cleaned_html or '',
links}`. -/
def fetch_headless (result : EngineResult) : Except String FetchResult :=
  if !result.success then
    .error ("Crawl failed: " ++ result.error_message)
  else
    .ok { html := pyOrStr result.html "",
          markdown := pyOrStr result.markdown (pyOrStr result.cleaned_html ""),
          links := match result.links with
                   | .dict internal external => internal ++ external
                   | .nonDict => [] }

/-- A JSON-RPC id: number, string, or null (also the value used when the
`id` key is absent, since `request.get('id')` returns `None`). -/
inductive JsonId where
  | n (v : Int)
  | s (v : String)
  | null
deriving DecidableEq

/-- The request's `params` object, with the keys the worker reads. -/
structure Params where
  url : Option String
  code : Option String
  filePath : Option String
deriving DecidableEq

/-- The default `{}` of `request.get('params', {})`. -/
def pdefault : Params := { url := none, code := none, filePath := none }

/-- A decoded request object (a Python dict): `request.get('id')`,
`request.get('method')` and `request.get('params', {})`. -/
structure Request where
  id : JsonId
  method : Option String
  params : Option Params
deriving DecidableEq

/-- The value of `main`'s `request` variable: the last value
`json.loads` returned — a dict, or some non-dict JSON value. -/
inductive PyVal where
  | dict (r : Request)
  | nonDict
deriving DecidableEq

/-- One line of the worker's input stream, by how `json.loads` treats it:
undecodable (carrying the decode exception's message), decodable to a
non-dict value (carrying the message of the `AttributeError` that
`request.get` then raises), or decodable to a request dict. -/
inductive InLine where
  | malformed (msg : String)
  | nonDict (msg : String)
  | request (r : Request)

/-- A result payload in a success Response. -/
inductive ResultVal where
  | parsed (r : ExtractionResult)
  | fetched (f : FetchResult)
  | raw (s : String)
deriving DecidableEq

/-- One output line of the worker: a success Response or an error
Response (whose `code` is always `-1` in this system). -/
inductive OutLine where
  | success (id : JsonId) (result : ResultVal)
  | err (id : JsonId) (code : Int) (message : String)
deriving DecidableEq

/-- A `SyntaxError` raised by `ast.parse`: its `lineno` (1-indexed) and
`msg`. -/
structure SynErr where
  lineno : Nat
  msg : String

/-- The worker's external collaborators: `process_request` for the
`crawl` branch (it always prints exactly one line and catches every
fault internally), the crawl4ai engine call made by `fetch_headless`,
and the Python parser `ast.parse` used by `parse_python_ast`. -/
structure WorkerEnv where
  crawl : Request → OutLine
  engine : String → EngineResult
  parse : String → Except SynErr Node

/-- The `parse_python` branch of `main` (crawl_worker.py lines 246-269):
missing/empty `code` raises `ValueError('code parameter is required')`;
a `SyntaxError` from `ast.parse` is re-raised by `parse_python_ast` as
`Python syntax error at line <n>: <msg>`; each fault is caught by the
branch's own handler and becomes one error Response with the request's
id; otherwise one success Response carries the extraction result. -/
def parsePythonOut (parse : String → Except SynErr Node) (r : Request) : OutLine :=
  let params := r.params.getD pdefault
  let code := params.code
  if !pyTruthyStr code then
    .err r.id (-1) "code parameter is required"
  else
    match parse (code.getD "") with
    | .ok tree => .success r.id (.parsed (parse_python_result tree))
    | .error e =>
        .err r.id (-1)
          ("Python syntax error at line " ++ toString e.lineno ++ ": " ++ e.msg)

/-- The `fetch_headless` branch of `main` (crawl_worker.py lines 223-244):
missing `url` raises `ValueError('URL parameter is required')`; engine
failure propagates as the raised message; each fault becomes one error
Response with the request's id; otherwise one success Response. -/
def fetchHeadlessOut (engine : String → EngineResult) (r : Request) : OutLine :=
  let params := r.params.getD pdefault
  let url := params.url
  if !pyTruthyStr url then
    .err r.id (-1) "URL parameter is required"
  else
    match fetch_headless (engine (url.getD "")) with
    | .ok f => .success r.id (.fetched f)
    | .error m => .err r.id (-1) m

/-- The `if/elif` dispatch of `main` (crawl_worker.py lines 221-269) for
a decoded request dict: `crawl`, `fetch_headless` and `parse_python`
each print exactly one line; any other method matches no branch and
prints nothing. -/
def dispatch (env : WorkerEnv) (r : Request) : List OutLine :=
  match r.method with
  | some "crawl" => [env.crawl r]
  | some "fetch_headless" => [fetchHeadlessOut env.engine r]
  | some "parse_python" => [parsePythonOut env.parse r]
  | _ => []

/-- The outcome of one iteration of `main`'s loop: the new value of the
`request` variable and the lines printed, or a crash — an exception that
escapes the `except` handler itself and terminates the loop. -/
inductive StepResult where
  | ok (v : PyVal) (out : List OutLine)
  | crash (out : List OutLine)

/-- One iteration of `for line in sys.stdin` (crawl_worker.py lines
216-277), given the current value of the `request` variable (`none` if
not yet assigned). On a decode failure the outer `except` builds
`request.get('id') if isinstance(request, dict) else None`: with
`request` unbound this raises `UnboundLocalError` (crash, nothing
printed); with a stale dict it prints an error Response carrying the
stale request's id; with a stale non-dict it prints one with null id.
A non-dict line assigns `request`, and the `AttributeError` from
`request.get('method')` reaches the outer handler, which prints an
error Response with null id. A dict line is dispatched. -/
def stepLine (env : WorkerEnv) (st : Option PyVal) : InLine → StepResult
  | .malformed msg =>
      match st with
      | none => .crash []
      | some (.dict prev) => .ok (.dict prev) [.err prev.id (-1) msg]
      | some .nonDict => .ok .nonDict [.err .null (-1) msg]
  | .nonDict msg => .ok .nonDict [.err .null (-1) msg]
  | .request r => .ok (.dict r) (dispatch env r)

/-- The whole input loop of `main`: processes lines in order; a crash
ends the process, dropping all later lines. -/
def runLoop (env : WorkerEnv) (st : Option PyVal) : List InLine → List OutLine
  | [] => []
  | l :: ls =>
      match stepLine env st l with
      | .ok v out => out ++ runLoop env (some v) ls
      | .crash out => out

/-- Spec-side (claim C3): the kind tag and name of a CodeNode. -/
def kindName : CodeNode → String × String
  | .function n _ _ _ _ _ _ => ("function", n)
  | .cls n _ _ _ _ => ("class", n)

/-- Spec-side (claim C3): what one top-level statement should contribute
to `nodes` by the spec's words — a function or async-function
declaration one function CodeNode, a class declaration one class
CodeNode, anything else nothing. -/
def specTopKind : Node → Option (String × String)
  | .FunctionDef n _ _ _ _ _ _ => some ("function", n)
  | .AsyncFunctionDef n _ _ _ _ _ _ => some ("function", n)
  | .ClassDef n _ _ _ _ _ => some ("class", n)
  | _ => none

/-- Spec-side (claim C3): the name a direct class-body statement should
contribute to the methods list — only function declarations count. -/
def specMethodName : Node → Option String
  | .FunctionDef n _ _ _ _ _ _ => some n
  | .AsyncFunctionDef n _ _ _ _ _ _ => some n
  | _ => none

/-- Spec-side (claim C4): callee names in source-appearance (pre-order)
order over the whole function definition. -/
def appearanceCalls (node : Node) : List String :=
  (preorderList [node]).filterMap calleeOf

/-- Spec-side (claim C4, as written): callee names in source-appearance
(pre-order) order over the function's body only. -/
def specBodyCalls : Node → List String
  | .FunctionDef _ _ body _ _ _ _ => (preorderList body).filterMap calleeOf
  | .AsyncFunctionDef _ _ body _ _ _ _ => (preorderList body).filterMap calleeOf
  | _ => []

/-- Spec-side (claim C6): every parameter of an `arguments` node —
positional-only, positional-or-keyword, `*args`, keyword-only and
`**kwargs`. -/
def specAllParams : Node → List Node
  | .Arguments po args va ko _ kwa _ => po ++ args ++ va.toList ++ ko ++ kwa.toList
  | _ => []

/-- Spec-side (claim C6, as written): a signature that emits each of the
function's parameters by name with its annotation when present. -/
def specSignatureAll : Node → String
  | .FunctionDef name args _ _ ret _ _ =>
      name ++ "(" ++ String.intercalate ", " ((specAllParams args).map renderArg) ++ ")" ++
        (match ret with | some r => " -> " ++ unparse r | none => "")
  | .AsyncFunctionDef name args _ _ ret _ _ =>
      name ++ "(" ++ String.intercalate ", " ((specAllParams args).map renderArg) ++ ")" ++
        (match ret with | some r => " -> " ++ unparse r | none => "")
  | _ => ""

/-- An empty `arguments` node: `def f():`. -/
def args0 : Node := .Arguments [] [] none [] [] none []

/-- The `arguments` node of `def m(self):`. -/
def argsSelf : Node := .Arguments [] [.Arg "self" none] none [] [] none []

/-- `def f():\n    g(h())\n    k()` — a body with a call nested inside
another call's argument list. -/
def fGHK : Node :=
  .FunctionDef "f" args0
    [.ExprStmt (.Call (.Name "g") [.Call (.Name "h") [] []] []),
     .ExprStmt (.Call (.Name "k") [] [])]
    [] none 1 (some 3)

/-- `def f():\n    foo()\n    obj.bar()` — the claim's own example body. -/
def fFooBar : Node :=
  .FunctionDef "f" args0
    [.ExprStmt (.Call (.Name "foo") [] []),
     .ExprStmt (.Call (.Attribute (.Name "obj") "bar") [] [])]
    [] none 1 (some 3)

/-- `@app.route()\ndef v():\n    1` — a decorator call, no call in the
body. -/
def fDec : Node :=
  .FunctionDef "v" args0 [.ExprStmt (.Constant "1")]
    [.Call (.Attribute (.Name "app") "route") [] []] none 2 (some 3)

/-- `def f():\n    def g(): ...` — a function nested inside a top-level
function. -/
def fOuter : Node :=
  .FunctionDef "f" args0
    [.FunctionDef "g" args0 [.ExprStmt (.Constant "1")] [] none 2 (some 2)]
    [] none 1 (some 2)

/-- `class C:` with method `m` that itself contains a nested function
`h`. -/
def clsNested : Node :=
  .ClassDef "C" []
    [.FunctionDef "m" argsSelf
      [.FunctionDef "h" args0 [.ExprStmt (.Constant "1")] [] none 3 (some 3)]
      [] none 2 (some 3)]
    [] 1 (some 3)

/-- `from pkg.sub import a as b, c` as a module tree. -/
def exFromTree : Node :=
  .Module [.ImportFrom (some "pkg.sub") [⟨"a", some "b"⟩, ⟨"c", none⟩]]

/-- A module whose only import statement sits inside a function body:
`def f():\n    import os`. -/
def nestedImportTree : Node :=
  .Module [.FunctionDef "f" args0 [.ImportStmt [⟨"os", none⟩]] [] none 1 (some 2)]

/-- `def f(p, /, x, *a, y, **k):` — one parameter of every kind. -/
def fAllKinds : Node :=
  .FunctionDef "f"
    (.Arguments [.Arg "p" none] [.Arg "x" none] (some (.Arg "a" none))
      [.Arg "y" none] [] (some (.Arg "k" none)) [])
    [.ExprStmt (.Constant "1")] [] none 1 (some 2)

/-- `def g(x: int, y) -> t.T:` — annotated parameter and return type. -/
def gAnn : Node :=
  .FunctionDef "g"
    (.Arguments [] [.Arg "x" (some (.Name "int")), .Arg "y" none] none [] [] none [])
    [.ExprStmt (.Constant "1")] [] (some (.Attribute (.Name "t") "T")) 1 (some 2)

/-- `def _hidden():` — an underscore-named top-level function. -/
def hiddenF : Node :=
  .FunctionDef "_hidden" args0 [.ExprStmt (.Constant "1")] [] none 1 (some 2)

/-- A successful engine result with one internal and one external link. -/
def engineEx : EngineResult :=
  { success := true, error_message := "", html := some "<html>",
    markdown := some "md", cleaned_html := none,
    links := .dict [.str "in1"] [.str "ex1"] }

/-- A concrete environment for witnesses: the crawl branch answers with a
fixed page, the engine returns `engineEx`, and the parser rejects the
text `"bad"` at line 3 and parses everything else to an empty module. -/
def envEx : WorkerEnv :=
  { crawl := fun r => .success r.id (.raw "page"),
    engine := fun _ => engineEx,
    parse := fun s =>
      if s = "bad" then .error { lineno := 3, msg := "invalid syntax" }
      else .ok (.Module []) }

/-- A well-formed `crawl` request with id 7. -/
def reqCrawl7 : Request := { id := .n 7, method := some "crawl", params := none }

/-- A request whose method matches no branch of the dispatcher. -/
def reqUnknown : Request := { id := .n 1, method := some "unknown_op", params := none }

/-- A `parse_python` request with no `code` parameter. -/
def reqNoCode : Request :=
  { id := .s "q", method := some "parse_python", params := some pdefault }

/-- A `parse_python` request whose code is the unparseable text `"bad"`. -/
def reqBad : Request :=
  { id := .n 2, method := some "parse_python",
    params := some { url := none, code := some "bad", filePath := none } }

/-- A `parse_python` request whose code is the blank-but-non-empty text
`" "`. -/
def reqBlank : Request :=
  { id := .n 4, method := some "parse_python",
    params := some { url := none, code := some " ", filePath := none } }

/-- Pre-order traversal distributes over list append. -/
theorem preorderList_append (xs ys : List Node) :
    preorderList (xs ++ ys) = preorderList xs ++ preorderList ys := by
  induction xs with
  | nil => simp [preorderList]
  | cons x xs ih => simp [preorderList, List.cons_append, ih]

/-- The breadth-first walk visits exactly the nodes of the pre-order
traversal: the two listings are permutations of each other. -/
theorem walkList_perm : (l : List Node) → List.Perm (walkList l) (preorderList l)
  | [] => by simp [walkList, preorderList]
  | t :: ts => by
      have ih := walkList_perm (ts ++ children t)
      rw [preorderList_append] at ih
      have h1 : walkList (t :: ts) = t :: walkList (ts ++ children t) := by
        simp [walkList]
      have h2 : preorderList (t :: ts) =
          t :: (preorderList (children t) ++ preorderList ts) := by
        simp [preorderList]
      rw [h1, h2]
      exact (ih.cons t).trans (List.perm_append_comm.cons t)
termination_by l => countList l
decreasing_by
  all_goals
    have h1 := countList_append ts (children t)
    have h2 := children_count_lt t
    simp [countList]
    omega

/-- The syntax-failure message can never coincide with the
missing-parameter message (their lengths already differ). -/
theorem syntax_msg_ne (x y : String) :
    "Python syntax error at line " ++ x ++ ": " ++ y ≠ "code parameter is required" := by
  intro h
  have hL := congrArg String.length h
  have e1 : ("Python syntax error at line ").length = 28 := rfl
  have e2 : (": ").length = 2 := rfl
  have e3 : ("code parameter is required").length = 26 := rfl
  simp [String.length_append, e1, e2, e3] at hL
  omega

/-- C1: contrary to the claim, a malformed input line is not answered by
one error Response with null id. If the malformed line is the first line
of the stream, the worker crashes before writing anything (its `except`
handler reads the still-unassigned `request` variable), so the
well-formed request on the next line is never handled; if the malformed
line follows an earlier request, the single error Response carries the
previous request's id (here 7), not null. -/
theorem C1_code_bug :
    runLoop envEx none [.malformed "Expecting value", .request reqCrawl7] = []
    ∧ runLoop envEx none [.request reqCrawl7, .malformed "Expecting value"] =
        [.success (.n 7) (.raw "page"), .err (.n 7) (-1) "Expecting value"] :=
  ⟨rfl, rfl⟩

/-- C2: a decoded request whose method is none of `crawl`,
`fetch_headless`, `parse_python` produces no output line at all, the
rest of the stream is processed as if the request had been the start of
it, and the handling of any later request does not depend on the loop
state at all. -/
theorem C2_thm (env : WorkerEnv) (st : Option PyVal) (r : Request) (ls : List InLine)
    (h1 : r.method ≠ some "crawl") (h2 : r.method ≠ some "fetch_headless")
    (h3 : r.method ≠ some "parse_python") :
    stepLine env st (.request r) = .ok (.dict r) []
    ∧ runLoop env st (.request r :: ls) = runLoop env (some (.dict r)) ls
    ∧ ∀ (st' : Option PyVal) (r' : Request),
        stepLine env st' (.request r') = stepLine env st (.request r') := by
  have hd : dispatch env r = [] := by
    unfold dispatch
    split <;> simp_all
  refine ⟨?_, ?_, ?_⟩
  · simp [stepLine, hd]
  · simp [runLoop, stepLine, hd]
  · intro st' r'
    rfl

/-- C2 witness: the unknown-method request `unknown_op` is dropped. -/
theorem C2_witness :
    stepLine envEx none (.request reqUnknown) = .ok (.dict reqUnknown) [] :=
  (C2_thm envEx none reqUnknown [] (by decide) (by decide) (by decide)).1

/-- C3: the `nodes` list consists of exactly the top-level function,
async-function and class declarations, in source order (first two
conjuncts: the kind/name sequence of the extraction equals the
declaration sequence of the top-level statement list, and a class's
method names are exactly its direct function members); a function nested
in a top-level function does not appear (third conjunct), and a function
nested inside a method does not become a method (fourth conjunct). -/
theorem C3_thm :
    (∀ body : List Node, (parse_nodes body).map kindName = body.filterMap specTopKind)
    ∧ (∀ cbody : List Node, (methodsOf cbody).map Method.name = cbody.filterMap specMethodName)
    ∧ parse_nodes [fOuter] = [.function "f" true 1 2 false "f()" []]
    ∧ parse_nodes [clsNested] =
        [.cls "C" true 1 3 [{ name := "m", isAsync := false, signature := "m(self)",
                              startLine := 2, endLine := 3, calls := [] }]] := by
  refine ⟨?_, ?_, ?_, ?_⟩
  · intro body
    induction body with
    | nil => simp [parse_nodes]
    | cons x xs ih =>
        cases x <;> simp [parse_nodes, parse_node_entry, specTopKind, kindName] at ih ⊢ <;>
          exact ih
  · intro cbody
    induction cbody with
    | nil => simp [methodsOf]
    | cons x xs ih =>
        cases x <;> simp [methodsOf, specMethodName] at ih ⊢ <;> exact ih
  · simp [parse_nodes, parse_node_entry, fOuter, args0, is_exported, pyEndLine,
          get_signature, argsOf, extract_calls, walk, walkList, children, calleeOf]
    decide
  · simp [parse_nodes, parse_node_entry, clsNested, argsSelf, args0, is_exported,
          pyEndLine, methodsOf, get_signature, argsOf, renderArg,
          extract_calls, walk, walkList, children, calleeOf]
    decide

/-- C4 counterexample: for the body `g(h()); k()` the extracted calls
come out in breadth-first order `["g", "k", "h"]`, not in the claimed
appearance order `["g", "h", "k"]`; and a call appearing only in a
decorator (`@app.route()`) is extracted although it is not within the
function body. -/
theorem C4_cex :
    (extract_calls fGHK = ["g", "k", "h"]
      ∧ specBodyCalls fGHK = ["g", "h", "k"]
      ∧ extract_calls fGHK ≠ specBodyCalls fGHK)
    ∧ (extract_calls fDec = ["route"]
      ∧ specBodyCalls fDec = []
      ∧ extract_calls fDec ≠ specBodyCalls fDec) := by
  have e1 : extract_calls fGHK = ["g", "k", "h"] := by
    simp [extract_calls, walk, fGHK, args0, walkList, children, calleeOf]
  have e2 : specBodyCalls fGHK = ["g", "h", "k"] := by
    simp [specBodyCalls, fGHK, args0, preorderList, children, calleeOf]
  have e3 : extract_calls fDec = ["route"] := by
    simp [extract_calls, walk, fDec, args0, walkList, children, calleeOf]
  have e4 : specBodyCalls fDec = [] := by
    simp [specBodyCalls, fDec, args0, preorderList, children, calleeOf]
  refine ⟨⟨e1, e2, ?_⟩, ⟨e3, e4, ?_⟩⟩
  · rw [e1, e2]; decide
  · rw [e3, e4]; decide

/-- C4 (amended): `calls` lists the simple callee name of every call
expression anywhere in the function definition's subtree (a bare-name
call contributes the name itself, a dotted call its final attribute
name), in breadth-first AST order — always a permutation of the
source-appearance order; on the claim's own flat example `foo();
obj.bar()` it is exactly `["foo", "bar"]`. -/
theorem C4_thm :
    (∀ node : Node, List.Perm (extract_calls node) (appearanceCalls node))
    ∧ extract_calls fFooBar = ["foo", "bar"] := by
  constructor
  · intro node
    exact (walkList_perm [node]).filterMap calleeOf
  · simp [extract_calls, walk, fFooBar, args0, walkList, children, calleeOf]

/-- C5: import extraction. First conjunct: the claim's round-trip
example `from pkg.sub import a as b, c` yields exactly the two claimed
entries in order. Second and third conjuncts: any `from`-import and any
plain import anywhere in the tree (any node reached by the walk, at any
depth) contributes its per-alias entries with the claimed shapes.
Fourth conjunct: an import statement nested inside a function body is
collected. -/
theorem C5_thm :
    extract_imports exFromTree =
        [.fromEntry "pkg.sub" "a" (some "b"), .fromEntry "pkg.sub" "c" none]
    ∧ (∀ (t : Node) (module : Option String) (names : List PyAlias) (a : PyAlias),
        Node.ImportFrom module names ∈ walk t → a ∈ names →
        module ≠ some "" → a.asname ≠ some "" →
        ImportEntry.fromEntry (module.getD "") a.name a.asname ∈ extract_imports t)
    ∧ (∀ (t : Node) (names : List PyAlias) (a : PyAlias),
        Node.ImportStmt names ∈ walk t → a ∈ names → a.asname ≠ some "" →
        ImportEntry.plain a.name (a.asname.getD a.name) ∈ extract_imports t)
    ∧ extract_imports nestedImportTree = [.plain "os" "os"] := by
  refine ⟨?_, ?_, ?_, ?_⟩
  · simp [extract_imports, walk, exFromTree, walkList, children, importEntriesOf,
          pyTruthyStr]
  · intro t module names a hwalk ha hm hal
    have e1 : (if pyTruthyStr module then module.getD "" else "") = module.getD "" := by
      cases module with
      | none => simp [pyTruthyStr]
      | some s =>
          have hs : s ≠ "" := fun h => hm (by rw [h])
          simp [pyTruthyStr, hs]
    have e2 : (if pyTruthyStr a.asname then a.asname else none) = a.asname := by
      cases h : a.asname with
      | none => simp [pyTruthyStr]
      | some s =>
          have hs : s ≠ "" := fun hh => hal (by rw [h, hh])
          simp [pyTruthyStr, hs]
    rw [← e1, ← e2]
    refine List.mem_flatMap.mpr ⟨_, hwalk, ?_⟩
    rw [importEntriesOf]
    exact List.mem_map_of_mem _ ha
  · intro t names a hwalk ha hal
    have e2 : (if pyTruthyStr a.asname then a.asname.getD "" else a.name) =
        a.asname.getD a.name := by
      cases h : a.asname with
      | none => simp [pyTruthyStr]
      | some s =>
          have hs : s ≠ "" := fun hh => hal (by rw [h, hh])
          simp [pyTruthyStr, hs]
    rw [← e2]
    refine List.mem_flatMap.mpr ⟨_, hwalk, ?_⟩
    rw [importEntriesOf]
    exact List.mem_map_of_mem _ ha
  · simp [extract_imports, walk, nestedImportTree, args0, walkList, children,
          importEntriesOf, pyTruthyStr]

/-- C6 counterexample: for `def f(p, /, x, *a, y, **k):` the rendered
signature is `f(x)` — the positional-only, keyword-only, `*args` and
`**kwargs` parameters are all omitted — while the claim's rendering of
each of the function's parameters would be `f(p, x, a, y, k)`. -/
theorem C6_cex :
    get_signature fAllKinds = "f(x)"
    ∧ specSignatureAll fAllKinds = "f(p, x, a, y, k)"
    ∧ get_signature fAllKinds ≠ specSignatureAll fAllKinds := by
  refine ⟨rfl, rfl, ?_⟩
  decide

/-- C6 (amended): the signature only renders the positional-or-keyword
parameters — it is insensitive to the positional-only, keyword-only,
`*args`, `**kwargs` and default fields of the arguments node (first
conjunct, for both function kinds) — and for those parameters it has the
claimed `name(param[: type], ...) -> returnType` form with unparsed
annotations (second conjunct, on `def g(x: int, y) -> t.T:`). -/
theorem C6_thm :
    (∀ (n : String) (po args : List Node) (va : Option Node) (ko kwd : List Node)
        (kwa : Option Node) (ds body dec : List Node) (ret : Option Node)
        (l : Nat) (e : Option Nat),
        get_signature (.FunctionDef n (.Arguments po args va ko kwd kwa ds) body dec ret l e)
          = get_signature (.FunctionDef n (.Arguments [] args none [] [] none []) body dec ret l e)
        ∧ get_signature (.AsyncFunctionDef n (.Arguments po args va ko kwd kwa ds) body dec ret l e)
          = get_signature (.AsyncFunctionDef n (.Arguments [] args none [] [] none []) body dec ret l e))
    ∧ get_signature gAnn = "g(x: int, y) -> t.T" := by
  refine ⟨?_, rfl⟩
  intro n po args va ko kwd kwa ds body dec ret l e
  exact ⟨rfl, rfl⟩

/-- C7: the `parse_python` branch fails exactly on missing/empty or
unparseable code. With a missing or empty `code` parameter it answers
with one error Response carrying the request's id and the message
`code parameter is required` (which contains `required`); with
non-empty code rejected by the parser at line `n` it answers with one
error Response whose message contains the 1-indexed line number `n`;
with non-empty code accepted by the parser it answers with one success
Response carrying the extraction result. -/
theorem C7_thm (env : WorkerEnv) (st : Option PyVal) (r : Request)
    (hm : r.method = some "parse_python") :
    (((r.params.getD pdefault).code = none ∨ (r.params.getD pdefault).code = some "") →
      stepLine env st (.request r) =
          .ok (.dict r) [.err r.id (-1) "code parameter is required"]
        ∧ ∃ x y, "code parameter is required" = x ++ "required" ++ y)
    ∧ (∀ (s : String) (n : Nat) (m : String),
        (r.params.getD pdefault).code = some s → s ≠ "" →
        env.parse s = .error { lineno := n, msg := m } →
        stepLine env st (.request r) = .ok (.dict r)
            [.err r.id (-1) ("Python syntax error at line " ++ toString n ++ ": " ++ m)]
          ∧ ∃ x y, ("Python syntax error at line " ++ toString n ++ ": " ++ m)
              = x ++ toString n ++ y)
    ∧ (∀ (s : String) (tree : Node),
        (r.params.getD pdefault).code = some s → s ≠ "" →
        env.parse s = .ok tree →
        stepLine env st (.request r) =
          .ok (.dict r) [.success r.id (.parsed (parse_python_result tree))]) := by
  have hd : dispatch env r = [parsePythonOut env.parse r] := by
    simp [dispatch, hm]
  refine ⟨?_, ?_, ?_⟩
  · intro hcode
    constructor
    · rcases hcode with h | h <;>
        simp [stepLine, hd, parsePythonOut, h, pyTruthyStr]
    · exact ⟨"code parameter is ", "", rfl⟩
  · intro s n m hcs hne hparse
    constructor
    · simp [stepLine, hd, parsePythonOut, hcs, pyTruthyStr, hne, hparse]
    · exact ⟨"Python syntax error at line ", ": " ++ m, by
        simp [String.append_assoc]⟩
  · intro s tree hcs hne hparse
    simp [stepLine, hd, parsePythonOut, hcs, pyTruthyStr, hne, hparse]

/-- C7 witness: with the concrete parser of `envEx`, a request with no
`code` parameter gets the required-error with its own id, and the
request whose code is the unparseable text `bad` gets the
syntax-failure message naming line 3. -/
theorem C7_witness :
    (stepLine envEx none (.request reqNoCode) =
        .ok (.dict reqNoCode) [.err (.s "q") (-1) "code parameter is required"]
      ∧ ∃ x y, "code parameter is required" = x ++ "required" ++ y)
    ∧ (stepLine envEx none (.request reqBad) =
        .ok (.dict reqBad) [.err (.n 2) (-1)
          ("Python syntax error at line " ++ toString 3 ++ ": " ++ "invalid syntax")]
      ∧ ∃ x y, ("Python syntax error at line " ++ toString 3 ++ ": " ++ "invalid syntax")
          = x ++ toString 3 ++ y) :=
  ⟨(C7_thm envEx none reqNoCode rfl).1 (Or.inl rfl),
   (C7_thm envEx none reqBad rfl).2.1 "bad" 3 "invalid syntax" rfl (by decide) rfl⟩

/-- C8: every CodeNode extracted from a top-level statement list has
`exported` false exactly when its name begins with an underscore. -/
theorem C8_thm (body : List Node) (cn : CodeNode) (hmem : cn ∈ parse_nodes body) :
    cn.exported = !(startswith_underscore cn.name) := by
  rcases List.mem_filterMap.mp hmem with ⟨a, ha, he⟩
  cases a <;> simp [parse_node_entry] at he <;>
    rw [← he] <;> simp [CodeNode.exported, CodeNode.name, is_exported]

/-- C8 witness: the extraction of `def _hidden():` carries
`exported = false`, matching its leading underscore. -/
theorem C8_witness :
    (CodeNode.function "_hidden" false 1 2 false "_hidden()" []).exported
      = !(startswith_underscore
          (CodeNode.function "_hidden" false 1 2 false "_hidden()" []).name) :=
  C8_thm [hiddenF] (CodeNode.function "_hidden" false 1 2 false "_hidden()" []) (by
    simp [parse_nodes, parse_node_entry, hiddenF, args0, is_exported, pyEndLine,
          get_signature, argsOf, extract_calls, walk, walkList, children, calleeOf,
          startswith_underscore]
    decide)

/-- C9 counterexample: a successful headless fetch whose engine reported
one internal and one external link returns both of them in `links`, so
`links` is not the internal links only. -/
theorem C9_cex :
    ∃ f, fetch_headless engineEx = .ok f
      ∧ f.links = [.str "in1", .str "ex1"]
      ∧ f.links ≠ [.str "in1"] := by
  refine ⟨_, rfl, rfl, by decide⟩

/-- C9 (amended): a successful `fetch_headless` returns
`{html, markdown, links}` where `links` is the engine's internal links
followed by its external links — the same internal-then-external
flattening as the crawl mode, not internal links only. -/
theorem C9_amended_thm (er : EngineResult) (i e : List LinkVal)
    (hs : er.success = true) (hl : er.links = .dict i e) :
    fetch_headless er = .ok
      { html := pyOrStr er.html "",
        markdown := pyOrStr er.markdown (pyOrStr er.cleaned_html ""),
        links := i ++ e } := by
  simp [fetch_headless, hs, hl]

/-- C9 witness: the amended statement at the concrete engine result. -/
theorem C9_witness :
    fetch_headless engineEx = .ok
      { html := pyOrStr engineEx.html "",
        markdown := pyOrStr engineEx.markdown (pyOrStr engineEx.cleaned_html ""),
        links := [.str "in1"] ++ [.str "ex1"] } :=
  C9_amended_thm engineEx [.str "in1"] [.str "ex1"] rfl rfl

/-- C10: non-empty code never triggers the required-parameter
validation failure: blank-but-non-empty source that parses to an empty
module succeeds with the empty extraction result `{nodes: [],
imports: []}` (first conjunct), and whatever the parser does with a
non-empty code string, the emitted line is never the
`code parameter is required` error (second conjunct). -/
theorem C10_thm (env : WorkerEnv) (st : Option PyVal) (r : Request)
    (hm : r.method = some "parse_python") :
    (∀ s : String, (r.params.getD pdefault).code = some s → s ≠ "" →
      env.parse s = .ok (.Module []) →
      stepLine env st (.request r) =
        .ok (.dict r) [.success r.id (.parsed { nodes := [], importList := [] })])
    ∧ (∀ s : String, (r.params.getD pdefault).code = some s → s ≠ "" →
      ∀ (v : PyVal) (out : List OutLine), stepLine env st (.request r) = .ok v out →
        OutLine.err r.id (-1) "code parameter is required" ∉ out) := by
  have hd : dispatch env r = [parsePythonOut env.parse r] := by
    simp [dispatch, hm]
  constructor
  · intro s hcs hne hparse
    have hres : parse_python_result (.Module []) = { nodes := [], importList := [] } := by
      simp [parse_python_result, parse_nodes, extract_imports, walk, walkList,
            children, importEntriesOf]
    simp [stepLine, hd, parsePythonOut, hcs, pyTruthyStr, hne, hparse, hres]
  · intro s hcs hne v out hstep
    have hout : out = [parsePythonOut env.parse r] := by
      rw [stepLine, hd] at hstep
      exact (StepResult.ok.injEq _ _ _ _).mp hstep |>.2.symm
    rw [hout]
    intro hmemb
    rcases List.mem_singleton.mp hmemb with heq
    rw [parsePythonOut] at heq
    simp only [hcs] at heq
    rw [show pyTruthyStr (some s) = true by simp [pyTruthyStr, hne]] at heq
    simp only [Bool.not_true, Bool.false_eq_true, if_false] at heq
    rw [show ((some s).getD "") = s from rfl] at heq
    cases hp : env.parse s with
    | ok tree => rw [hp] at heq; exact OutLine.noConfusion heq.symm
    | error e =>
        rw [hp] at heq
        have := (OutLine.err.injEq _ _ _ _ _ _).mp heq.symm
        exact syntax_msg_ne (toString e.lineno) e.msg this.2.2

/-- C10 witness: the blank code `" "` (non-empty, parsed by `envEx` to
an empty module) succeeds with the empty extraction result. -/
theorem C10_witness :
    stepLine envEx none (.request reqBlank) =
      .ok (.dict reqBlank) [.success (.n 4) (.parsed { nodes := [], importList := [] })] :=
  (C10_thm envEx none reqBlank rfl).1 " " rfl (by decide) rfl

end CrawlWorker
